import Mathlib

/-!
Verification of the schedule change-detection and notification pipeline of the
GsomSPbU schedule bot, against its natural-language specification.

The Python sources are shallowly embedded:
* raw schedule events (JSON dicts from the upstream API) become the `Event`
  structure, with `Option` marking fields that may be absent (a key that is
  present with JSON `null` behaves like an absent key throughout the embedded
  code paths, so both are modelled as `none`);
* `dict.get(k)`/`dict.get(k, "")` and Python `or`-chains are modelled by
  `Option.getD` and `pyOrList`;
* Python `str.lower()` is modelled by `pyLower`, covering ASCII and the
  Cyrillic letters that occur in the fixed keyword sets;
* Python's `needle in haystack` substring test is modelled by `pyIn`;
* SHA-256 over an injective JSON serialization (`json.dumps(..., sort_keys=True)`)
  is modelled by the serialization itself (a collision-free abstraction of the
  digest); equality of digests is the only property the code uses;
* the async delivery sink (`send_notification`, which returns `True` exactly on
  successful delivery and `False` on every exception branch) is modelled as a
  boolean oracle `deliver : Int → String → Bool`;
* SQLite tables become explicit in-memory stores, with upsert / `INSERT OR
  IGNORE` semantics spelled out;
* side effects that the claims observe (delivery attempts, calls to
  `notify_schedule_changes`, calls to `save_schedule_snapshot`) are recorded in
  explicit instrumentation fields of the returned state.
-/

/-! ## Python string primitives -/

/-- Python `str.lower()` on a single character, for the alphabets appearing in
the fixed keyword sets: ASCII `A`–`Z`, Cyrillic `А`–`Я` and `Ё`. -/
def pyLowerChar (c : Char) : Char :=
  if 'A' ≤ c ∧ c ≤ 'Z' then Char.ofNat (c.toNat + 32)
  else if 'А' ≤ c ∧ c ≤ 'Я' then Char.ofNat (c.toNat + 32)
  else if c = 'Ё' then 'ё'
  else c

/-- Python `str.lower()`. -/
def pyLower (s : String) : String := String.mk (s.data.map pyLowerChar)

/-- Substring test on character lists (Python `needle in haystack`). -/
def isSubstring (needle : List Char) : List Char → Bool
  | [] => needle.isEmpty
  | c :: t => needle.isPrefixOf (c :: t) || isSubstring needle t

/-- Python `needle in haystack` on strings. -/
def pyIn (needle hay : String) : Bool := isSubstring needle.data hay.data

/-- Python `d.get(k1) or d.get(k2) or []`: the first operand that is present
and non-empty wins; otherwise the empty list. -/
def pyOrList {α : Type} (a b : Option (List α)) : List α :=
  match a with
  | some l => if l.isEmpty then (match b with | some m => m | none => []) else l
  | none => match b with | some m => m | none => []

/-! ## Data model: raw events (upstream JSON dicts) -/

/-- One entry of an `Educators`/`EducatorIds` list: either a dict carrying
`FullName`/`Name`, or a plain string. -/
inductive EduItem where
  | obj (fullName : Option String) (name : Option String)
  | str (s : String)
deriving Repr, DecidableEq

/-- One entry of an `EventLocations`/`Locations` list: either a dict carrying
`DisplayName`/`Address`, or a plain string. -/
inductive LocItem where
  | obj (displayName : Option String) (address : Option String)
  | str (s : String)
deriving Repr, DecidableEq

/-- A raw schedule event, with exactly the keys the embedded code reads. -/
structure Event where
  DayDate : Option String := none
  Start : Option String := none
  End : Option String := none
  TimeIntervalString : Option String := none
  Subject : Option String := none
  Kind : Option String := none
  EducatorIds : Option (List EduItem) := none
  Educators : Option (List EduItem) := none
  EventLocations : Option (List LocItem) := none
  Locations : Option (List LocItem) := none
  OnlineNote : Option String := none
deriving Repr, DecidableEq

/-! ## ScheduleService (src/services/schedule_service.py) -/

/-- `ScheduleService.SESSION_EVENT_TYPES`. -/
def SESSION_EVENT_TYPES : List String :=
  ["зачет", "зачёт", "экзамен", "показ работ", "credit", "exam"]

/-- `ScheduleService.is_session_event`. -/
def isSessionEvent (e : Event) : Bool :=
  let kind := pyLower (e.Kind.getD "")
  let subject := pyLower (e.Subject.getD "")
  SESSION_EVENT_TYPES.any (fun kw => pyIn kw kind || pyIn kw subject)

/-- Flattening of one educator entry: a dict contributes
`FullName or Name or ""` when non-empty; a plain string is kept as is
(`normalize_event`, educator loop). -/
def eduToName : EduItem → Option String
  | .obj fn n =>
      let v := if fn.getD "" ≠ "" then fn.getD "" else n.getD ""
      if v ≠ "" then some v else none
  | .str s => some s

/-- Flattening of one location entry: a dict contributes
`DisplayName or Address or ""` when non-empty; a plain string is kept as is
(`normalize_event`, location loop). -/
def locToName : LocItem → Option String
  | .obj dn ad =>
      let v := if dn.getD "" ≠ "" then dn.getD "" else ad.getD ""
      if v ≠ "" then some v else none
  | .str s => some s

/-- The educator names extracted by `normalize_event`
(`event.get("EducatorIds") or event.get("Educators") or []`, flattened). -/
def extractEducators (e : Event) : List String :=
  (pyOrList e.EducatorIds e.Educators).filterMap eduToName

/-- The location descriptors extracted by `normalize_event`
(`event.get("EventLocations") or event.get("Locations") or []`, flattened). -/
def extractLocations (e : Event) : List String :=
  (pyOrList e.EventLocations e.Locations).filterMap locToName

/-- The fixed keyword list of `normalize_event`'s online check. -/
def normalizeOnlineKeywords : List String :=
  ["дистанционн", "онлайн", "online", "коммуникационно"]

/-- The concatenated location text `" ".join(locations)` of `normalize_event`. -/
def locationTextOf (e : Event) : String :=
  String.intercalate " " (extractLocations e)

/-- The result of `ScheduleService.normalize_event`. -/
structure NormalizedEvent where
  date : String
  time_start : String
  time_end : String
  time_interval : String
  subject : String
  kind : String
  educators : List String
  locations : List String
  is_online : Bool
deriving Repr, DecidableEq

/-- `ScheduleService.normalize_event`. -/
def normalizeEvent (e : Event) : NormalizedEvent :=
  { date := e.DayDate.getD ""
    time_start := e.Start.getD ""
    time_end := e.End.getD ""
    time_interval := e.TimeIntervalString.getD ""
    subject := e.Subject.getD ""
    kind := e.Kind.getD ""
    educators := extractEducators e
    locations := extractLocations e
    is_online := normalizeOnlineKeywords.any (fun kw => pyIn kw (pyLower (locationTextOf e))) }

/-- `ScheduleService.create_event_key`: the time-free identity key
`date|subject|kind|educators|locations` with `"|"`-joined lists. -/
def createEventKey (e : Event) : String :=
  let n := normalizeEvent e
  n.date ++ "|" ++ n.subject ++ "|" ++ n.kind ++ "|"
    ++ String.intercalate "|" n.educators ++ "|" ++ String.intercalate "|" n.locations

/-! ## ScheduleService.compare_schedules -/

/-- The key set of one side, in the order/dedup sense of
`set(dict(...).keys())` (membership is what the claims use). -/
def keysOf (es : List Event) : List String := (es.map createEventKey).dedup

/-- The write log of the dict comprehension
`{create_event_key(e): normalize_event(e) for e in events}`.  A Python dict is
this log together with last-write-wins lookup (`dictLookup`). -/
def normMap (es : List Event) : List (String × NormalizedEvent) :=
  es.map (fun e => (createEventKey e, normalizeEvent e))

/-- Lookup in the dict modelled by a write log: the last write wins. -/
def dictLookup (d : List (String × NormalizedEvent)) (k : String) : Option NormalizedEvent :=
  ((d.filter (fun p => p.1 == k)).getLast?).map Prod.snd

/-- The representative-event search
`for e in events: if create_event_key(e) == key: ... break` (first match). -/
def firstWithKey (es : List Event) (k : String) : Option Event :=
  es.find? (fun e => createEventKey e == k)

/-- One entry of the `changed` bucket (`{"old": ..., "new": ..., "changes": ...}`;
the `old`/`new` slots start as `None` in the source, hence `Option`). -/
structure ChangedEntry where
  old : Option Event
  new : Option Event
  changes : List String
deriving Repr, DecidableEq

/-- The per-key field comparison of `compare_schedules`, in source order:
time pair, educators, locations, online flag. -/
def computeChanges (od nd : NormalizedEvent) : List String :=
  (if od.time_start ≠ nd.time_start ∨ od.time_end ≠ nd.time_end then ["time"] else [])
  ++ (if od.educators ≠ nd.educators then ["educator"] else [])
  ++ (if od.locations ≠ nd.locations then ["location"] else [])
  ++ (if od.is_online ≠ nd.is_online then ["format"] else [])

/-- The diff result `{"added": ..., "removed": ..., "changed": ...}`. -/
structure DiffResult where
  added : List Event
  removed : List Event
  changed : List ChangedEntry
deriving Repr, DecidableEq

/-- The body of the `changed` loop of `compare_schedules` for one shared key:
look both sides up in the normalized dicts, collect the field changes, and when
any exist emit the entry with the first-occurrence representatives. -/
def changedEntryFor (oldEvents newEvents : List Event) (k : String) : Option ChangedEntry :=
  match dictLookup (normMap oldEvents) k, dictLookup (normMap newEvents) k with
  | some od, some nd =>
      let changes := computeChanges od nd
      if changes.isEmpty then none
      else some { old := firstWithKey oldEvents k, new := firstWithKey newEvents k,
                  changes := changes }
  | _, _ => none

/-- `ScheduleService.compare_schedules`. -/
def compareSchedules (oldEvents newEvents : List Event) : DiffResult :=
  let oldKeys := keysOf oldEvents
  let newKeys := keysOf newEvents
  { added := (newKeys.filter (fun k => !(oldKeys.contains k))).filterMap (firstWithKey newEvents)
    removed := (oldKeys.filter (fun k => !(newKeys.contains k))).filterMap (firstWithKey oldEvents)
    changed := (oldKeys.filter (fun k => newKeys.contains k)).filterMap
      (changedEntryFor oldEvents newEvents) }

/-! ## Notification data and dedup store (src/database/db.py) -/

/-- The payload `{"type": ..., "event_key": ..., ["changes": ...]}` attached to
one notification (`changes` is present only for the `changed` type). -/
structure NotificationData where
  type : String
  event_key : String
  changes : Option (List String) := none
deriving Repr, DecidableEq

/-- `Database._hash_notification`: SHA-256 over the sorted-keys JSON of
`{"user_id": user_id, **notification_data}`.  The digest of an injective
serialization is modelled by the serialized payload itself. -/
def hashNotification (userId : Int) (d : NotificationData) : Int × NotificationData :=
  (userId, d)

/-- The `sent_notifications` table: rows `(user_id, notification_hash)` with a
UNIQUE constraint on the pair. -/
abbrev SentStore := List (Int × (Int × NotificationData))

/-- `Database.is_notification_sent`. -/
def isNotificationSent (s : SentStore) (userId : Int) (d : NotificationData) : Bool :=
  decide ((userId, hashNotification userId d) ∈ s)

/-- `Database.mark_notification_sent`: `INSERT OR IGNORE` under the UNIQUE
constraint — a duplicate insert leaves the table unchanged. -/
def markNotificationSent (s : SentStore) (userId : Int) (d : NotificationData) : SentStore :=
  if (userId, hashNotification userId d) ∈ s then s
  else s ++ [(userId, hashNotification userId d)]

/-! ## NotificationService (src/services/notification_service.py) -/

/-- The rendered text of `format_change_notification`.  None of the verified
claims inspects the rendered string (it is only handed to the delivery sink),
so the renderer is modelled as a deterministic function of exactly the
arguments the source renderer consumes: change type, event, changes list and
group name. -/
def formatChangeNotification (changeType : String) (event : Event)
    (changes : Option (List String)) (groupName : String) : String :=
  "🔔 Изменение в расписании " ++ groupName ++ "\n" ++ changeType ++ "\n"
    ++ String.intercalate ", " (changes.getD []) ++ "\n" ++ createEventKey event
    ++ "|" ++ (normalizeEvent event).time_interval ++ "|" ++ (normalizeEvent event).time_start
    ++ "|" ++ (normalizeEvent event).time_end

/-- One `(notification_text, notification_data)` pair built by
`notify_schedule_changes`, instrumented with the diff event it was built from
(the event passed to `format_change_notification`). -/
structure NotificationUnit where
  text : String
  data : NotificationData
  srcEvent : Event
deriving Repr, DecidableEq

/-- The notification-building phase of `notify_schedule_changes` (lines
102–148): added, then removed, then changed, each skipping session events —
for a changed entry the session check and the payload are taken from the new
event. -/
def buildNotifications (groupName : String) (diff : DiffResult) : List NotificationUnit :=
  (diff.added.filterMap (fun e =>
      if isSessionEvent e then none
      else some { text := formatChangeNotification "added" e none groupName
                  data := { type := "added", event_key := createEventKey e }
                  srcEvent := e }))
  ++ (diff.removed.filterMap (fun e =>
      if isSessionEvent e then none
      else some { text := formatChangeNotification "removed" e none groupName
                  data := { type := "removed", event_key := createEventKey e }
                  srcEvent := e }))
  ++ (diff.changed.filterMap (fun ch =>
      match ch.new with
      | some e =>
          if isSessionEvent e then none
          else some { text := formatChangeNotification "changed" e (some ch.changes) groupName
                      data := { type := "changed", event_key := createEventKey e,
                                changes := some ch.changes }
                      srcEvent := e }
      | none => none))

/-- A subscribed, notification-enabled user row: `(user_id, group_name)`. -/
abbrev UserRec := Int × String

/-- `users[0].get("group_name", "")`. -/
def groupNameOf (users : List UserRec) : String :=
  match users with
  | [] => ""
  | u :: _ => u.2

/-- The state threaded through the delivery loop, instrumented with the list
of delivery attempts (calls into `send_notification`). -/
structure NotifyState where
  store : SentStore
  sentCount : Nat
  attempts : List (Int × NotificationUnit)
deriving Repr, DecidableEq

/-- The body of the inner delivery loop (lines 154–162): skip if the
deduplicator already records the pair, otherwise attempt delivery and mark the
pair as sent only when the sink reports success. -/
def deliverStep (deliver : Int → String → Bool) (userId : Int)
    (st : NotifyState) (n : NotificationUnit) : NotifyState :=
  if isNotificationSent st.store userId n.data then st
  else if deliver userId n.text then
    { store := markNotificationSent st.store userId n.data
      sentCount := st.sentCount + 1
      attempts := st.attempts ++ [(userId, n)] }
  else { st with attempts := st.attempts ++ [(userId, n)] }

/-- The inner loop over the notification list, for one user. -/
def runUser (deliver : Int → String → Bool) (notifs : List NotificationUnit)
    (st : NotifyState) (u : UserRec) : NotifyState :=
  notifs.foldl (deliverStep deliver u.1) st

/-- The outer loop over the users. -/
def runUsers (deliver : Int → String → Bool) (users : List UserRec)
    (notifs : List NotificationUnit) (st : NotifyState) : NotifyState :=
  users.foldl (runUser deliver notifs) st

/-- `NotificationService.notify_schedule_changes`: diff, early return on an
empty diff or an empty user list, then the delivery loop.  The fetched user
rows are passed in (the embedded `get_users_by_group` result); `deliver` is
the messaging sink. -/
def notifyScheduleChanges (deliver : Int → String → Bool) (users : List UserRec)
    (store : SentStore) (oldEvents newEvents : List Event) : NotifyState :=
  let changes := compareSchedules oldEvents newEvents
  if changes.added.isEmpty && changes.removed.isEmpty && changes.changed.isEmpty then
    { store := store, sentCount := 0, attempts := [] }
  else if users.isEmpty then
    { store := store, sentCount := 0, attempts := [] }
  else
    runUsers deliver users (buildNotifications (groupNameOf users) changes)
      { store := store, sentCount := 0, attempts := [] }

/-! ## Schedule snapshots (src/database/db.py) and the per-group check
(src/services/scheduler_service.py) -/

/-- Serialization of one educator entry (part of the `json.dumps` model). -/
def serializeEduItem : EduItem → String
  | .obj fn n => "O(" ++ fn.getD "#none" ++ "," ++ n.getD "#none" ++ ")"
  | .str s => "S(" ++ s ++ ")"

/-- Serialization of one location entry (part of the `json.dumps` model). -/
def serializeLocItem : LocItem → String
  | .obj dn ad => "O(" ++ dn.getD "#none" ++ "," ++ ad.getD "#none" ++ ")"
  | .str s => "S(" ++ s ++ ")"

/-- Serialization of one event (part of the `json.dumps` model): every field
rendered, in sorted key order. -/
def serializeEvent (e : Event) : String :=
  "DayDate:" ++ e.DayDate.getD "#none"
    ++ ";EducatorIds:" ++ String.intercalate "," ((e.EducatorIds.getD []).map serializeEduItem)
    ++ ";Educators:" ++ String.intercalate "," ((e.Educators.getD []).map serializeEduItem)
    ++ ";End:" ++ e.End.getD "#none"
    ++ ";EventLocations:" ++ String.intercalate "," ((e.EventLocations.getD []).map serializeLocItem)
    ++ ";Kind:" ++ e.Kind.getD "#none"
    ++ ";Locations:" ++ String.intercalate "," ((e.Locations.getD []).map serializeLocItem)
    ++ ";OnlineNote:" ++ e.OnlineNote.getD "#none"
    ++ ";Start:" ++ e.Start.getD "#none"
    ++ ";Subject:" ++ e.Subject.getD "#none"
    ++ ";TimeIntervalString:" ++ e.TimeIntervalString.getD "#none"

/-- `Database._hash_schedule`: SHA-256 of `json.dumps(schedule_data,
sort_keys=True)`.  As for notifications, the digest of the injective
serialization is modelled by the serialization itself; the code only ever
compares digests for equality. -/
def hashSchedule (events : List Event) : String :=
  "[" ++ String.intercalate "|" (events.map serializeEvent) ++ "]"

/-- The `schedule_snapshots` table: one row per `(group_id, snapshot_type)`
(UNIQUE constraint), holding the content hash and the serialized events
(stored and loaded through a lossless JSON round trip, modelled as the list
itself). -/
abbrev SnapshotStore := List ((Int × String) × (String × List Event))

/-- `Database.get_schedule_snapshot`: the row for `(group_id, snapshot_type)`,
or `none` (the source's `(None, None)`). -/
def getScheduleSnapshot (db : SnapshotStore) (g : Int) (kind : String) :
    Option (String × List Event) :=
  (db.find? (fun r => r.1 == (g, kind))).map Prod.snd

/-- `Database.save_schedule_snapshot`: upsert on `(group_id, snapshot_type)`
(`ON CONFLICT ... DO UPDATE`), returning the new hash. -/
def saveScheduleSnapshot (db : SnapshotStore) (g : Int) (data : List Event)
    (kind : String) : SnapshotStore × String :=
  let h := hashSchedule data
  if db.any (fun r => r.1 == (g, kind)) then
    (db.map (fun r => if r.1 == (g, kind) then ((g, kind), (h, data)) else r), h)
  else (db ++ [((g, kind), (h, data))], h)

/-- Everything `SchedulerService._check_group_schedule` produces for one group
on a successful fetch: the updated stores, the returned notification count,
and instrumentation recording every call to `notify_schedule_changes` and
`save_schedule_snapshot` and every delivery attempt. -/
structure CheckOutcome where
  snapshots : SnapshotStore
  sentStore : SentStore
  sentCount : Nat
  notifyCalls : List (List Event × List Event)
  saveCalls : List (Int × List Event × String)
  attempts : List (Int × NotificationUnit)
deriving Repr, DecidableEq

/-- `SchedulerService._check_group_schedule` after a successful fetch
(`fetched` is the list the API client returned; a failed fetch raises before
any of the modelled steps run).  Cold start stores the initial snapshot and
returns 0; an unchanged hash returns 0 touching nothing; otherwise the
notifier runs and the snapshot is overwritten. -/
def checkGroupSchedule (deliver : Int → String → Bool) (users : List UserRec)
    (snapshots : SnapshotStore) (sent : SentStore) (groupId : Int)
    (fetched : List Event) : CheckOutcome :=
  match getScheduleSnapshot snapshots groupId "regular" with
  | none =>
      let saved := saveScheduleSnapshot snapshots groupId fetched "regular"
      { snapshots := saved.1, sentStore := sent, sentCount := 0,
        notifyCalls := [], saveCalls := [(groupId, fetched, "regular")], attempts := [] }
  | some (oldHash, oldEvents) =>
      let newHash := hashSchedule fetched
      if oldHash == newHash then
        { snapshots := snapshots, sentStore := sent, sentCount := 0,
          notifyCalls := [], saveCalls := [], attempts := [] }
      else
        let st := notifyScheduleChanges deliver users sent oldEvents fetched
        let saved := saveScheduleSnapshot snapshots groupId fetched "regular"
        { snapshots := saved.1, sentStore := st.store, sentCount := st.sentCount,
          notifyCalls := [(oldEvents, fetched)],
          saveCalls := [(groupId, fetched, "regular")], attempts := st.attempts }

/-- The spec's claimed online-flag predicate for `normalize_event`, stated for
refinement comparison only (claim C8): a fixed keyword set including the
online keyword, the communication-information-technologies keyword and the
local abbreviation `ДОТ`, matched case-insensitively against the concatenated
location text or against the event's online-note field. -/
def onlineFlagClaim (e : Event) : Bool :=
  let locStr := locationTextOf e
  let note := e.OnlineNote.getD ""
  ["дистанционн", "онлайн", "online", "коммуникационно-информационн", "ДОТ"].any
    (fun kw => pyIn (pyLower kw) (pyLower locStr) || pyIn (pyLower kw) (pyLower note))

/-! ## Loop invariant and concrete sample data -/

/-- Invariant of the delivery loop: every successful attempt recorded so far is
marked in the dedup store. -/
def NotifyWF (deliver : Int → String → Bool) (st : NotifyState) : Prop :=
  ∀ u n, (u, n) ∈ st.attempts → deliver u n.text = true →
    isNotificationSent st.store u n.data = true

/-- A plain lecture event (sample data for witnesses). -/
def evA : Event :=
  { DayDate := some "2024-09-28", Start := some "10:00", End := some "11:30",
    Subject := some "Матан", Kind := some "lecture",
    Educators := some [.obj (some "Иванов") none],
    Locations := some [.str "ауд. 101"] }

/-- `evA` moved from 10:00 to 12:00, all other fields identical. -/
def evB : Event := { evA with Start := some "12:00", End := some "13:30" }

/-- A session-category event (kind `Экзамен`). -/
def evExam : Event := { evA with Kind := some "Экзамен" }

/-- A duplicate-key variant of `evA` at 08:00. -/
def dupA : Event := { evA with Start := some "08:00" }

/-- A duplicate-key variant of `evA` at 09:00 (same key as `dupA`). -/
def dupB : Event := { evA with Start := some "09:00" }

/-- The event used for the C8 counterexample: sole location is the local
abbreviation `ДОТ`. -/
def eDotEvent : Event := { Locations := some [.str "ДОТ"] }

/-- A snapshot store holding `[evA]` for group 1, kind `regular`. -/
def snapEx : SnapshotStore := (saveScheduleSnapshot [] 1 [evA] "regular").1

/-- The notification unit built for `evB` arriving as `added`. -/
def unitAddedB : NotificationUnit :=
  { text := formatChangeNotification "added" evB none ""
    data := { type := "added", event_key := createEventKey evB }
    srcEvent := evB }

/-- The notification unit built for the `evA → evB` time change. -/
def unitChangedB : NotificationUnit :=
  { text := formatChangeNotification "changed" evB (some ["time"]) "ГР"
    data := { type := "changed", event_key := createEventKey evB, changes := some ["time"] }
    srcEvent := evB }

/-- The changed entry produced for `[dupA, dupB]` versus `[evB]`. -/
def entryDup : ChangedEntry := { old := some dupA, new := some evB, changes := ["time"] }

/-! ## Store lemmas -/

theorem find_update (db : SnapshotStore) (key : Int × String) (v : String × List Event)
    (h : db.any (fun r => r.1 == key) = true) :
    (db.map (fun r => if r.1 == key then (key, v) else r)).find? (fun r => r.1 == key)
      = some (key, v) := by
  induction db with
  | nil => simp at h
  | cons r rs ih =>
    by_cases he : r.1 = key
    · have h1 : (if (r.1 == key) = true then (key, v) else r) = (key, v) := by simp [he]
      rw [List.map_cons, h1, List.find?_cons]
      simp
    · have h1 : (if (r.1 == key) = true then (key, v) else r) = r := by simp [he]
      have hrb : (r.1 == key) = false := by simp [he]
      have h2 : rs.any (fun r => r.1 == key) = true := by
        simpa [List.any_cons, hrb] using h
      rw [List.map_cons, h1, List.find?_cons]
      simp only [hrb]
      exact ih h2

theorem find_append_new (db : SnapshotStore) (key : Int × String) (v : String × List Event)
    (h : db.any (fun r => r.1 == key) = false) :
    (db ++ [(key, v)]).find? (fun r => r.1 == key) = some (key, v) := by
  rw [List.find?_append]
  have h0 : db.find? (fun r => r.1 == key) = none := by
    rw [List.find?_eq_none]
    intro x hx
    by_contra hp
    have hx2 : db.any (fun r => r.1 == key) = true :=
      List.any_eq_true.mpr ⟨x, hx, by simpa using hp⟩
    rw [h] at hx2
    exact Bool.false_ne_true hx2
  simp [h0, List.find?_cons]

theorem getScheduleSnapshot_save (db : SnapshotStore) (g : Int) (data : List Event)
    (kind : String) :
    getScheduleSnapshot (saveScheduleSnapshot db g data kind).1 g kind
      = some (hashSchedule data, data) := by
  unfold getScheduleSnapshot saveScheduleSnapshot
  by_cases h : db.any (fun r => r.1 == (g, kind)) = true
  · rw [if_pos h]
    rw [find_update db (g, kind) (hashSchedule data, data) h]
    rfl
  · rw [if_neg h]
    rw [find_append_new db (g, kind) (hashSchedule data, data)
      (by simp only [Bool.not_eq_true] at h; exact h)]
    rfl

/-! ## C10 -/

/-- C10: after `mark_notification_sent(u, d)`, `is_notification_sent(u, d)` is
true, and a second `mark_notification_sent(u, d)` leaves the store unchanged —
both operations derive the same deterministic fingerprint from `(u, d)`. -/
theorem mark_notification_idempotent_and_visible (s : SentStore) (u : Int)
    (d : NotificationData) :
    isNotificationSent (markNotificationSent s u d) u d = true ∧
    markNotificationSent (markNotificationSent s u d) u d = markNotificationSent s u d := by
  by_cases h : (u, hashNotification u d) ∈ s
  · simp [markNotificationSent, isNotificationSent, h]
  · simp [markNotificationSent, isNotificationSent, h]

/-! ## C7 -/

/-- C7: the keys of `compare_schedules(A, B).added` are exactly the keys of
`compare_schedules(B, A).removed`, and symmetrically for the other pair. -/
theorem added_removed_swap_symmetry (A B : List Event) (k : String) :
    ((k ∈ (compareSchedules A B).added.map createEventKey) ↔
      (k ∈ (compareSchedules B A).removed.map createEventKey)) ∧
    ((k ∈ (compareSchedules A B).removed.map createEventKey) ↔
      (k ∈ (compareSchedules B A).added.map createEventKey)) := by
  have h1 : (compareSchedules A B).added = (compareSchedules B A).removed := rfl
  have h2 : (compareSchedules A B).removed = (compareSchedules B A).added := rfl
  exact ⟨by rw [h1], by rw [h2]⟩

/-! ## C8 -/

/-- C8 counterexample: the claim's online predicate (which includes the local
abbreviation `ДОТ` and consults the online-note field) is true on an event
whose sole location is `ДОТ`, but `normalize_event` computes `is_online =
false` there (its keyword set has no `ДОТ` and it never reads `OnlineNote`). -/
theorem normalize_online_flag_counterexample :
    onlineFlagClaim eDotEvent = true ∧ (normalizeEvent eDotEvent).is_online = false := by
  exact ⟨rfl, rfl⟩

/-- C8 amended: `normalize_event`'s `is_online` is true iff one of the four
keywords `дистанционн`, `онлайн`, `online`, `коммуникационно` occurs
case-insensitively in the concatenated location text; the online-note field is
not consulted (changing it never changes the flag). -/
theorem normalize_online_flag_location_only (e : Event) :
    ((normalizeEvent e).is_online = true ↔
      ∃ kw ∈ normalizeOnlineKeywords, pyIn kw (pyLower (locationTextOf e)) = true) ∧
    ∀ note, (normalizeEvent { e with OnlineNote := note }).is_online
        = (normalizeEvent e).is_online := by
  constructor
  · simp [normalizeEvent, List.any_eq_true]
  · intro note
    rfl

/-! ## C4 -/

/-- C4: with no stored `regular` snapshot and a successful fetch, the
per-group check stores the fetched events as the initial snapshot, returns a
notification count of zero, and invokes no notification dispatch at all. -/
theorem cold_start_stores_snapshot_zero_notifications
    (deliver : Int → String → Bool) (users : List UserRec) (snapshots : SnapshotStore)
    (sent : SentStore) (g : Int) (fetched : List Event)
    (h : getScheduleSnapshot snapshots g "regular" = none) :
    (checkGroupSchedule deliver users snapshots sent g fetched).sentCount = 0 ∧
    (checkGroupSchedule deliver users snapshots sent g fetched).notifyCalls = [] ∧
    (checkGroupSchedule deliver users snapshots sent g fetched).attempts = [] ∧
    (checkGroupSchedule deliver users snapshots sent g fetched).sentStore = sent ∧
    getScheduleSnapshot (checkGroupSchedule deliver users snapshots sent g fetched).snapshots
        g "regular" = some (hashSchedule fetched, fetched) := by
  have hc : checkGroupSchedule deliver users snapshots sent g fetched =
      { snapshots := (saveScheduleSnapshot snapshots g fetched "regular").1,
        sentStore := sent, sentCount := 0, notifyCalls := [],
        saveCalls := [(g, fetched, "regular")], attempts := [] } := by
    unfold checkGroupSchedule
    rw [h]
  rw [hc]
  exact ⟨rfl, rfl, rfl, rfl, getScheduleSnapshot_save snapshots g fetched "regular"⟩

/-- Witness for C4 at a concrete cold-start input. -/
theorem cold_start_stores_snapshot_zero_notifications_witness :
    getScheduleSnapshot ([] : SnapshotStore) 1 "regular" = none ∧
    ((checkGroupSchedule (fun _ _ => true) [(7, "ГР")] [] [] 1 [evA]).sentCount = 0 ∧
     (checkGroupSchedule (fun _ _ => true) [(7, "ГР")] [] [] 1 [evA]).notifyCalls = [] ∧
     (checkGroupSchedule (fun _ _ => true) [(7, "ГР")] [] [] 1 [evA]).attempts = [] ∧
     (checkGroupSchedule (fun _ _ => true) [(7, "ГР")] [] [] 1 [evA]).sentStore = [] ∧
     getScheduleSnapshot (checkGroupSchedule (fun _ _ => true) [(7, "ГР")] [] [] 1
         [evA]).snapshots 1 "regular" = some (hashSchedule [evA], [evA])) :=
  ⟨rfl, cold_start_stores_snapshot_zero_notifications (fun _ _ => true) [(7, "ГР")] [] [] 1
    [evA] rfl⟩

/-! ## C5 -/

/-- C5: when the fetched events hash to the stored snapshot hash, the
per-group check returns zero with no diff computed (the notifier, which is the
sole caller of `compare_schedules` on this path, is never invoked), no
delivery attempted, and no write to any store: the whole state is returned
unchanged. -/
theorem unchanged_hash_skips_diff_and_write
    (deliver : Int → String → Bool) (users : List UserRec) (snapshots : SnapshotStore)
    (sent : SentStore) (g : Int) (fetched : List Event) (h0 : String) (olds : List Event)
    (hsnap : getScheduleSnapshot snapshots g "regular" = some (h0, olds))
    (hh : hashSchedule fetched = h0) :
    checkGroupSchedule deliver users snapshots sent g fetched =
      { snapshots := snapshots, sentStore := sent, sentCount := 0,
        notifyCalls := [], saveCalls := [], attempts := [] } := by
  subst hh
  unfold checkGroupSchedule
  rw [hsnap]
  simp

set_option maxRecDepth 16384 in
/-- Witness for C5 at a concrete matching-hash input. -/
theorem unchanged_hash_skips_diff_and_write_witness :
    getScheduleSnapshot snapEx 1 "regular" = some (hashSchedule [evA], [evA]) ∧
    checkGroupSchedule (fun _ _ => true) [(7, "ГР")] snapEx [] 1 [evA] =
      { snapshots := snapEx, sentStore := [], sentCount := 0,
        notifyCalls := [], saveCalls := [], attempts := [] } :=
  ⟨rfl, unchanged_hash_skips_diff_and_write (fun _ _ => true) [(7, "ГР")] snapEx [] 1 [evA]
    (hashSchedule [evA]) [evA] rfl rfl⟩

/-! ## C6 -/

set_option maxRecDepth 16384 in
/-- C6 counterexample: a per-group check with a successful fetch in which
`save_schedule_snapshot` is NOT invoked — the stored snapshot hash matches the
fetched content, so the code returns before any snapshot write, refuting the
claim that the snapshot store is updated unconditionally after every
successful fetch. -/
theorem snapshot_not_always_saved_counterexample :
    getScheduleSnapshot snapEx 1 "regular" ≠ none ∧
    (checkGroupSchedule (fun _ _ => true) [(7, "ГР")] snapEx [] 1 [evA]).saveCalls = [] := by
  exact ⟨by simp [snapEx, getScheduleSnapshot_save], rfl⟩

/-- C6 amended: after a successful fetch the snapshot is overwritten exactly
when there is no stored snapshot (cold start) or the fetched content hashes
differently from the stored hash; when the hashes match, no snapshot write
happens.  In the overwrite cases the write occurs regardless of the
notification outcome (`deliver`, `users` and the dedup store are arbitrary). -/
theorem snapshot_saved_iff_cold_or_hash_changed
    (deliver : Int → String → Bool) (users : List UserRec) (snapshots : SnapshotStore)
    (sent : SentStore) (g : Int) (fetched : List Event) :
    (getScheduleSnapshot snapshots g "regular" = none →
      (checkGroupSchedule deliver users snapshots sent g fetched).saveCalls
        = [(g, fetched, "regular")]) ∧
    (∀ h0 olds, getScheduleSnapshot snapshots g "regular" = some (h0, olds) →
      (hashSchedule fetched = h0 →
        (checkGroupSchedule deliver users snapshots sent g fetched).saveCalls = []) ∧
      (hashSchedule fetched ≠ h0 →
        (checkGroupSchedule deliver users snapshots sent g fetched).saveCalls
          = [(g, fetched, "regular")])) := by
  constructor
  · intro h
    unfold checkGroupSchedule
    rw [h]
  · intro h0 olds hs
    constructor
    · intro hh
      subst hh
      unfold checkGroupSchedule
      rw [hs]
      simp
    · intro hh
      unfold checkGroupSchedule
      rw [hs]
      have hb : (h0 == hashSchedule fetched) = false := by
        simp only [beq_eq_false_iff_ne, ne_eq]
        exact fun e => hh e.symm
      simp [hb]

/-- Witness for C6's amended claim at a concrete cold-start input. -/
theorem snapshot_saved_iff_cold_or_hash_changed_witness :
    getScheduleSnapshot ([] : SnapshotStore) 1 "regular" = none ∧
    (checkGroupSchedule (fun _ _ => true) [(7, "ГР")] [] [] 1 [evA]).saveCalls
      = [(1, [evA], "regular")] :=
  ⟨rfl, (snapshot_saved_iff_cold_or_hash_changed (fun _ _ => true) [(7, "ГР")] [] [] 1
    [evA]).1 rfl⟩

/-! ## C1 -/

/-- C1: two events identical in every non-time field (date, subject, kind,
instructor lists, location lists) get the same `create_event_key`, and
`compare_schedules` on `old = [the 10:00 event]`, `new = [the 12:00 event]`
classifies the pair as a single `changed` entry with changes `["time"]`, with
the `added` and `removed` buckets empty. -/
theorem key_time_invariant_time_shift_changed (e1 e2 : Event)
    (hDay : e1.DayDate = e2.DayDate) (hSubj : e1.Subject = e2.Subject)
    (hKind : e1.Kind = e2.Kind) (hEduIds : e1.EducatorIds = e2.EducatorIds)
    (hEdu : e1.Educators = e2.Educators) (hLocIds : e1.EventLocations = e2.EventLocations)
    (hLoc : e1.Locations = e2.Locations)
    (hTime : (normalizeEvent e1).time_start ≠ (normalizeEvent e2).time_start ∨
             (normalizeEvent e1).time_end ≠ (normalizeEvent e2).time_end) :
    createEventKey e1 = createEventKey e2 ∧
    (compareSchedules [e1] [e2]).added = [] ∧
    (compareSchedules [e1] [e2]).removed = [] ∧
    (compareSchedules [e1] [e2]).changed
      = [{ old := some e1, new := some e2, changes := ["time"] }] := by
  have hedu : extractEducators e1 = extractEducators e2 := by
    unfold extractEducators
    rw [hEduIds, hEdu]
  have hloc : extractLocations e1 = extractLocations e2 := by
    unfold extractLocations
    rw [hLocIds, hLoc]
  have hd : (normalizeEvent e1).date = (normalizeEvent e2).date := by
    simp [normalizeEvent, hDay]
  have hsu : (normalizeEvent e1).subject = (normalizeEvent e2).subject := by
    simp [normalizeEvent, hSubj]
  have hk : (normalizeEvent e1).kind = (normalizeEvent e2).kind := by
    simp [normalizeEvent, hKind]
  have hedun : (normalizeEvent e1).educators = (normalizeEvent e2).educators := by
    simp [normalizeEvent, hedu]
  have hlocn : (normalizeEvent e1).locations = (normalizeEvent e2).locations := by
    simp [normalizeEvent, hloc]
  have honl : (normalizeEvent e1).is_online = (normalizeEvent e2).is_online := by
    simp [normalizeEvent, locationTextOf, hloc]
  have hkey : createEventKey e1 = createEventKey e2 := by
    simp only [createEventKey]
    rw [hd, hsu, hk, hedun, hlocn]
  have hkeys1 : keysOf [e1] = [createEventKey e1] := by
    simp [keysOf]
  have hkeys2 : keysOf [e2] = [createEventKey e1] := by
    simp [keysOf, hkey]
  have hchg : computeChanges (normalizeEvent e1) (normalizeEvent e2) = ["time"] := by
    unfold computeChanges
    rw [if_pos hTime, if_neg (by simp [hedun]), if_neg (by simp [hlocn]),
        if_neg (by simp [honl])]
    simp
  refine ⟨hkey, ?_, ?_, ?_⟩
  · simp only [compareSchedules, hkeys1, hkeys2]
    simp [List.filter]
  · simp only [compareSchedules, hkeys1, hkeys2]
    simp [List.filter]
  · simp only [compareSchedules, hkeys1, hkeys2]
    simp only [List.filter, List.contains_cons]
    simp only [beq_self_eq_true, Bool.true_or, List.filterMap]
    simp [changedEntryFor, dictLookup, normMap, firstWithKey, List.find?, hkey, hchg,
      beq_self_eq_true]

set_option maxRecDepth 16384 in
/-- Witness for C1: `evA` at 10:00 and `evB` at 12:00, otherwise identical. -/
theorem key_time_invariant_time_shift_changed_witness :
    (normalizeEvent evA).time_start ≠ (normalizeEvent evB).time_start ∧
    (createEventKey evA = createEventKey evB ∧
     (compareSchedules [evA] [evB]).added = [] ∧
     (compareSchedules [evA] [evB]).removed = [] ∧
     (compareSchedules [evA] [evB]).changed
       = [{ old := some evA, new := some evB, changes := ["time"] }]) :=
  ⟨by decide, key_time_invariant_time_shift_changed evA evB rfl rfl rfl rfl rfl rfl rfl
    (Or.inl (by decide))⟩

/-! ## C9 -/

/-- A Python dict built by successive writes resolves a lookup to the last
write for that key: the normalized-map lookup equals `normalize_event` of the
last event with that key. -/
theorem dictLookup_normMap (es : List Event) (k : String) :
    dictLookup (normMap es) k
      = ((es.filter (fun e => createEventKey e == k)).getLast?).map normalizeEvent := by
  unfold dictLookup normMap
  simp only [List.filter_map, List.getLast?_map, Option.map_map]
  rfl

/-- `firstWithKey` (the representative-event search of `compare_schedules`)
returns the first event in list order with the given key. -/
theorem firstWithKey_eq_head_filter (es : List Event) (k : String) :
    firstWithKey es k = (es.filter (fun e => createEventKey e == k)).head? := by
  induction es with
  | nil => rfl
  | cons e t ih =>
    unfold firstWithKey at ih ⊢
    rw [List.find?_cons, List.filter_cons]
    cases h : createEventKey e == k
    · simp only [h, cond_false, Bool.false_eq_true, if_false]
      exact ih
    · simp only [h, cond_true, if_true]
      rfl

/-- C9: in `compare_schedules`, when several events inside one input share an
event key, the data used for change detection comes from the LAST such event
(dict-comprehension last-write-wins), while the representative placed in the
output bucket is the FIRST such event — and `added`/`removed` representatives
are likewise first occurrences. -/
theorem duplicate_key_last_wins_first_representative (old new : List Event) :
    (∀ entry ∈ (compareSchedules old new).changed,
      ∃ k oLast nLast,
        entry.old = (old.filter (fun e => createEventKey e == k)).head? ∧
        entry.new = (new.filter (fun e => createEventKey e == k)).head? ∧
        (old.filter (fun e => createEventKey e == k)).getLast? = some oLast ∧
        (new.filter (fun e => createEventKey e == k)).getLast? = some nLast ∧
        entry.changes = computeChanges (normalizeEvent oLast) (normalizeEvent nLast) ∧
        entry.changes ≠ []) ∧
    (∀ e ∈ (compareSchedules old new).added,
      some e = (new.filter (fun x => createEventKey x == createEventKey e)).head?) ∧
    (∀ e ∈ (compareSchedules old new).removed,
      some e = (old.filter (fun x => createEventKey x == createEventKey e)).head?) := by
  refine ⟨?_, ?_, ?_⟩
  · intro entry hmem
    simp only [compareSchedules, List.mem_filterMap] at hmem
    obtain ⟨k, hk, hfk⟩ := hmem
    unfold changedEntryFor at hfk
    cases hol : dictLookup (normMap old) k with
    | none => rw [hol] at hfk; simp at hfk
    | some od =>
      cases hnl : dictLookup (normMap new) k with
      | none => rw [hol, hnl] at hfk; simp at hfk
      | some nd =>
        rw [hol, hnl] at hfk
        simp only [] at hfk
        by_cases hemp : (computeChanges od nd).isEmpty = true
        · rw [if_pos hemp] at hfk
          exact absurd hfk (by simp)
        · rw [if_neg hemp] at hfk
          have hentry := (Option.some_inj.mp hfk).symm
          rw [dictLookup_normMap] at hol hnl
          obtain ⟨oLast, hoL, hod⟩ := Option.map_eq_some'.mp hol
          obtain ⟨nLast, hnL, hnd⟩ := Option.map_eq_some'.mp hnl
          refine ⟨k, oLast, nLast, ?_, ?_, hoL, hnL, ?_, ?_⟩
          · rw [hentry]
            exact firstWithKey_eq_head_filter old k
          · rw [hentry]
            exact firstWithKey_eq_head_filter new k
          · rw [hentry]
            simp only []
            rw [hod, hnd]
          · rw [hentry]
            simp only []
            intro hc
            rw [hc] at hemp
            simp at hemp
  · intro e hmem
    simp only [compareSchedules, List.mem_filterMap] at hmem
    obtain ⟨k, hk, hfind⟩ := hmem
    have hke : createEventKey e = k := by
      have := List.find?_some hfind
      simpa using this
    rw [hke]
    rw [← firstWithKey_eq_head_filter]
    exact hfind.symm
  · intro e hmem
    simp only [compareSchedules, List.mem_filterMap] at hmem
    obtain ⟨k, hk, hfind⟩ := hmem
    have hke : createEventKey e = k := by
      have := List.find?_some hfind
      simpa using this
    rw [hke]
    rw [← firstWithKey_eq_head_filter]
    exact hfind.symm

set_option maxRecDepth 16384 in
/-- Witness for C9: `[dupA, dupB]` (same key, 08:00 and 09:00) against
`[evB]`; the reported representative is `dupA` (first) while the compared data
came from `dupB` (last). -/
theorem duplicate_key_last_wins_first_representative_witness :
    entryDup ∈ (compareSchedules [dupA, dupB] [evB]).changed ∧
    (∃ k oLast nLast,
      entryDup.old = (([dupA, dupB]).filter (fun e => createEventKey e == k)).head? ∧
      entryDup.new = (([evB]).filter (fun e => createEventKey e == k)).head? ∧
      (([dupA, dupB]).filter (fun e => createEventKey e == k)).getLast? = some oLast ∧
      (([evB]).filter (fun e => createEventKey e == k)).getLast? = some nLast ∧
      entryDup.changes = computeChanges (normalizeEvent oLast) (normalizeEvent nLast) ∧
      entryDup.changes ≠ []) :=
  ⟨by decide, (duplicate_key_last_wins_first_representative [dupA, dupB] [evB]).1 entryDup
    (by decide)⟩

/-! ## Delivery-loop lemmas (for C2 and C3) -/

/-- Marking one pair preserves every recorded pair. -/
theorem isSent_mark_mono (s : SentStore) (x : Int) (e : NotificationData) (u : Int)
    (d : NotificationData) (h : isNotificationSent s u d = true) :
    isNotificationSent (markNotificationSent s x e) u d = true := by
  unfold markNotificationSent
  split
  · exact h
  · unfold isNotificationSent at h ⊢
    simp only [decide_eq_true_eq] at h ⊢
    exact List.mem_append_left _ h

/-- A freshly marked pair is recorded. -/
theorem isSent_mark_self (s : SentStore) (u : Int) (d : NotificationData) :
    isNotificationSent (markNotificationSent s u d) u d = true := by
  unfold markNotificationSent isNotificationSent
  split
  · next h => simpa using h
  · simp

/-- A pair recorded after a mark was recorded before, or is the marked pair. -/
theorem isSent_mark_cases (s : SentStore) (x : Int) (e : NotificationData) (u : Int)
    (d : NotificationData)
    (h : isNotificationSent (markNotificationSent s x e) u d = true) :
    isNotificationSent s u d = true ∨ (u = x ∧ d = e) := by
  unfold markNotificationSent at h
  split at h
  · exact Or.inl h
  · unfold isNotificationSent at h
    simp only [decide_eq_true_eq, List.mem_append, List.mem_singleton] at h
    rcases h with h | h
    · left
      unfold isNotificationSent
      simpa using h
    · right
      simp only [hashNotification, Prod.mk.injEq] at h
      exact ⟨h.1, h.2.2⟩

/-- Case analysis of one iteration of the delivery loop: skip (already sent),
successful delivery (attempt recorded, pair marked, count bumped), or failed
delivery (attempt recorded, nothing marked). -/
theorem deliverStep_eq (o : Int → String → Bool) (uid : Int) (st : NotifyState)
    (n : NotificationUnit) :
    (isNotificationSent st.store uid n.data = true ∧ deliverStep o uid st n = st) ∨
    (isNotificationSent st.store uid n.data = false ∧ o uid n.text = true ∧
      deliverStep o uid st n =
        { store := markNotificationSent st.store uid n.data,
          sentCount := st.sentCount + 1, attempts := st.attempts ++ [(uid, n)] }) ∨
    (isNotificationSent st.store uid n.data = false ∧ o uid n.text = false ∧
      deliverStep o uid st n = { st with attempts := st.attempts ++ [(uid, n)] }) := by
  unfold deliverStep
  by_cases h1 : isNotificationSent st.store uid n.data = true
  · exact Or.inl ⟨h1, by rw [if_pos h1]⟩
  · have h1f : isNotificationSent st.store uid n.data = false := by simpa using h1
    by_cases h2 : o uid n.text = true
    · exact Or.inr (Or.inl ⟨h1f, h2, by rw [if_neg h1, if_pos h2]⟩)
    · have h2f : o uid n.text = false := by simpa using h2
      exact Or.inr (Or.inr ⟨h1f, h2f, by rw [if_neg h1, if_neg h2]⟩)

/-- One loop iteration only appends to the attempt log. -/
theorem step_attempts_mono (o : Int → String → Bool) (uid : Int) (st : NotifyState)
    (n : NotificationUnit) (p : Int × NotificationUnit) (hp : p ∈ st.attempts) :
    p ∈ (deliverStep o uid st n).attempts := by
  rcases deliverStep_eq o uid st n with ⟨_, he⟩ | ⟨_, _, he⟩ | ⟨_, _, he⟩ <;>
    rw [he] <;> simp [hp]

/-- An attempt present after one iteration is old, or is the pair of this
iteration, attempted only when not already recorded as sent. -/
theorem step_attempts_cases (o : Int → String → Bool) (uid : Int) (st : NotifyState)
    (n : NotificationUnit) (p : Int × NotificationUnit)
    (hp : p ∈ (deliverStep o uid st n).attempts) :
    p ∈ st.attempts ∨ (p = (uid, n) ∧ isNotificationSent st.store uid n.data = false) := by
  rcases deliverStep_eq o uid st n with ⟨_, he⟩ | ⟨hs, _, he⟩ | ⟨hs, _, he⟩ <;> rw [he] at hp
  · exact Or.inl hp
  · simp only [List.mem_append, List.mem_singleton] at hp
    rcases hp with hp | hp
    · exact Or.inl hp
    · exact Or.inr ⟨hp, hs⟩
  · simp only [List.mem_append, List.mem_singleton] at hp
    rcases hp with hp | hp
    · exact Or.inl hp
    · exact Or.inr ⟨hp, hs⟩

/-- One loop iteration never unmarks a recorded pair. -/
theorem step_store_mono (o : Int → String → Bool) (uid : Int) (st : NotifyState)
    (n : NotificationUnit) (u : Int) (d : NotificationData)
    (h : isNotificationSent st.store u d = true) :
    isNotificationSent (deliverStep o uid st n).store u d = true := by
  rcases deliverStep_eq o uid st n with ⟨_, he⟩ | ⟨_, _, he⟩ | ⟨_, _, he⟩ <;> rw [he]
  · exact h
  · exact isSent_mark_mono _ _ _ _ _ h
  · exact h

/-- A pair recorded after one iteration was recorded before, or is the pair
of this iteration after a successful delivery attempt. -/
theorem step_sent_cases (o : Int → String → Bool) (uid : Int) (st : NotifyState)
    (n : NotificationUnit) (u : Int) (d : NotificationData)
    (h : isNotificationSent (deliverStep o uid st n).store u d = true) :
    isNotificationSent st.store u d = true ∨
      (u = uid ∧ d = n.data ∧ o uid n.text = true ∧
        (uid, n) ∈ (deliverStep o uid st n).attempts) := by
  rcases deliverStep_eq o uid st n with ⟨_, he⟩ | ⟨hs, hd, he⟩ | ⟨_, _, he⟩ <;> rw [he] at h ⊢
  · exact Or.inl h
  · rcases isSent_mark_cases _ _ _ _ _ h with h2 | ⟨hu, hdn⟩
    · exact Or.inl h2
    · exact Or.inr ⟨hu, hdn, hd, by simp⟩
  · exact Or.inl h

/-- One loop iteration preserves the invariant that every successful attempt
is recorded. -/
theorem step_WF (o : Int → String → Bool) (uid : Int) (st : NotifyState)
    (n : NotificationUnit) (h : NotifyWF o st) : NotifyWF o (deliverStep o uid st n) := by
  intro u m hm ho
  rcases deliverStep_eq o uid st n with ⟨_, he⟩ | ⟨hs, hd, he⟩ | ⟨hs, hd, he⟩ <;>
      rw [he] at hm ⊢
  · exact h u m hm ho
  · simp only [List.mem_append, List.mem_singleton, Prod.mk.injEq] at hm
    rcases hm with hm | ⟨hu, hmn⟩
    · exact isSent_mark_mono _ _ _ _ _ (h u m hm ho)
    · subst hu
      subst hmn
      exact isSent_mark_self _ _ _
  · simp only [List.mem_append, List.mem_singleton, Prod.mk.injEq] at hm
    rcases hm with hm | ⟨hu, hmn⟩
    · exact h u m hm ho
    · subst hu
      subst hmn
      rw [ho] at hd
      exact absurd hd (by simp)

/-- The per-user loop only appends to the attempt log. -/
theorem foldA_attempts_mono (o : Int → String → Bool) (uid : Int) :
    ∀ (notifs : List NotificationUnit) (st : NotifyState) (p : Int × NotificationUnit),
      p ∈ st.attempts → p ∈ (notifs.foldl (deliverStep o uid) st).attempts := by
  intro notifs
  induction notifs with
  | nil => intro st p hp; simpa using hp
  | cons n t ih =>
    intro st p hp
    rw [List.foldl_cons]
    exact ih _ _ (step_attempts_mono o uid st n p hp)

/-- The per-user loop never unmarks a recorded pair. -/
theorem foldA_store_mono (o : Int → String → Bool) (uid : Int) :
    ∀ (notifs : List NotificationUnit) (st : NotifyState) (u : Int) (d : NotificationData),
      isNotificationSent st.store u d = true →
      isNotificationSent ((notifs.foldl (deliverStep o uid) st)).store u d = true := by
  intro notifs
  induction notifs with
  | nil => intro st u d h; simpa using h
  | cons n t ih =>
    intro st u d h
    rw [List.foldl_cons]
    exact ih _ _ _ (step_store_mono o uid st n u d h)

/-- The per-user loop preserves the success-implies-recorded invariant. -/
theorem foldA_WF (o : Int → String → Bool) (uid : Int) :
    ∀ (notifs : List NotificationUnit) (st : NotifyState), NotifyWF o st →
      NotifyWF o (notifs.foldl (deliverStep o uid) st) := by
  intro notifs
  induction notifs with
  | nil => intro st h; simpa using h
  | cons n t ih =>
    intro st h
    rw [List.foldl_cons]
    exact ih _ (step_WF o uid st n h)

/-- Every attempt added by the per-user loop belongs to this user and to the
notification list. -/
theorem foldA_attempts_cases (o : Int → String → Bool) (uid : Int) :
    ∀ (notifs : List NotificationUnit) (st : NotifyState) (p : Int × NotificationUnit),
      p ∈ (notifs.foldl (deliverStep o uid) st).attempts →
      p ∈ st.attempts ∨ (p.1 = uid ∧ p.2 ∈ notifs) := by
  intro notifs
  induction notifs with
  | nil => intro st p hp; exact Or.inl (by simpa using hp)
  | cons n t ih =>
    intro st p hp
    rw [List.foldl_cons] at hp
    rcases ih _ p hp with h1 | ⟨h1, h2⟩
    · rcases step_attempts_cases o uid st n p h1 with h2 | ⟨h2, _⟩
      · exact Or.inl h2
      · subst h2
        exact Or.inr ⟨rfl, by simp⟩
    · exact Or.inr ⟨h1, List.mem_cons_of_mem n h2⟩

/-- A pair recorded after the per-user loop was recorded before, or some
successful attempt with that fingerprint appears in the log. -/
theorem foldA_sent_cases (o : Int → String → Bool) (uid : Int) :
    ∀ (notifs : List NotificationUnit) (st : NotifyState) (u : Int) (d : NotificationData),
      isNotificationSent ((notifs.foldl (deliverStep o uid) st)).store u d = true →
      isNotificationSent st.store u d = true ∨
        ∃ m, m.data = d ∧ (u, m) ∈ (notifs.foldl (deliverStep o uid) st).attempts ∧
          o u m.text = true := by
  intro notifs
  induction notifs with
  | nil => intro st u d h; exact Or.inl (by simpa using h)
  | cons n t ih =>
    intro st u d h
    rw [List.foldl_cons] at h ⊢
    rcases ih _ u d h with h1 | ⟨m, hm, hat, ho⟩
    · rcases step_sent_cases o uid st n u d h1 with h2 | ⟨hu, hd, ho, hat⟩
      · exact Or.inl h2
      · subst hu
        right
        exact ⟨n, hd.symm, foldA_attempts_mono o u t _ _ hat, ho⟩
    · exact Or.inr ⟨m, hm, hat, ho⟩

/-- If a fingerprint is recorded before the per-user loop, the loop attempts
no delivery for it. -/
theorem foldA_no_attempt_when_sent (o : Int → String → Bool) (uid : Int) :
    ∀ (notifs : List NotificationUnit) (st : NotifyState) (u : Int) (d : NotificationData),
      isNotificationSent st.store u d = true →
      ∀ m : NotificationUnit, m.data = d →
        (u, m) ∈ (notifs.foldl (deliverStep o uid) st).attempts → (u, m) ∈ st.attempts := by
  intro notifs
  induction notifs with
  | nil => intro st u d _ m _ hmem; simpa using hmem
  | cons n t ih =>
    intro st u d hsent m hmd hmem
    rw [List.foldl_cons] at hmem
    have hstep := ih _ u d (step_store_mono o uid st n u d hsent) m hmd hmem
    rcases step_attempts_cases o uid st n _ hstep with h1 | ⟨h1, h2⟩
    · exact h1
    · exfalso
      have hu : u = uid := congrArg Prod.fst h1
      have hm : m = n := congrArg Prod.snd h1
      subst hu
      rw [← hm, hmd] at h2
      rw [hsent] at h2
      exact absurd h2 (by simp)

/-- The per-user loop reaches every notification: either its fingerprint was
already recorded, or an attempt with that fingerprint is logged. -/
theorem foldA_reaches (o : Int → String → Bool) (uid : Int) :
    ∀ (notifs : List NotificationUnit) (st : NotifyState) (n : NotificationUnit),
      n ∈ notifs →
      isNotificationSent st.store uid n.data = true ∨
        ∃ m, m.data = n.data ∧ (uid, m) ∈ (notifs.foldl (deliverStep o uid) st).attempts := by
  intro notifs
  induction notifs with
  | nil => intro st n hn; exact absurd hn (List.not_mem_nil n)
  | cons n0 t ih =>
    intro st n hn
    rw [List.foldl_cons]
    rcases List.mem_cons.mp hn with rfl | hn2
    · by_cases hs : isNotificationSent st.store uid n.data = true
      · exact Or.inl hs
      · right
        refine ⟨n, rfl, ?_⟩
        have hsf : isNotificationSent st.store uid n.data = false := by simpa using hs
        have hstep : (uid, n) ∈ (deliverStep o uid st n).attempts := by
          rcases deliverStep_eq o uid st n with ⟨h1, _⟩ | ⟨_, _, he⟩ | ⟨_, _, he⟩
          · rw [h1] at hsf; exact absurd hsf (by simp)
          · rw [he]; simp
          · rw [he]; simp
        exact foldA_attempts_mono o uid t _ _ hstep
    · rcases ih (deliverStep o uid st n0) n hn2 with hs | hex
      · rcases step_sent_cases o uid st n0 uid n.data hs with h1 | ⟨_, hd, _, hat⟩
        · exact Or.inl h1
        · right
          exact ⟨n0, hd.symm, foldA_attempts_mono o uid t _ _ hat⟩
      · exact Or.inr hex

/-- The all-users loop only appends to the attempt log. -/
theorem runUsers_attempts_mono (o : Int → String → Bool) (notifs : List NotificationUnit) :
    ∀ (users : List UserRec) (st : NotifyState) (p : Int × NotificationUnit),
      p ∈ st.attempts → p ∈ (runUsers o users notifs st).attempts := by
  intro users
  induction users with
  | nil => intro st p hp; simpa [runUsers] using hp
  | cons v vs ih =>
    intro st p hp
    unfold runUsers at ih ⊢
    rw [List.foldl_cons]
    exact ih _ _ (foldA_attempts_mono o v.1 notifs st p hp)

/-- The all-users loop never unmarks a recorded pair. -/
theorem runUsers_store_mono (o : Int → String → Bool) (notifs : List NotificationUnit) :
    ∀ (users : List UserRec) (st : NotifyState) (u : Int) (d : NotificationData),
      isNotificationSent st.store u d = true →
      isNotificationSent (runUsers o users notifs st).store u d = true := by
  intro users
  induction users with
  | nil => intro st u d h; simpa [runUsers] using h
  | cons v vs ih =>
    intro st u d h
    unfold runUsers at ih ⊢
    rw [List.foldl_cons]
    exact ih _ _ _ (foldA_store_mono o v.1 notifs st u d h)

/-- The all-users loop preserves the success-implies-recorded invariant. -/
theorem runUsers_WF (o : Int → String → Bool) (notifs : List NotificationUnit) :
    ∀ (users : List UserRec) (st : NotifyState), NotifyWF o st →
      NotifyWF o (runUsers o users notifs st) := by
  intro users
  induction users with
  | nil => intro st h; simpa [runUsers] using h
  | cons v vs ih =>
    intro st h
    unfold runUsers at ih ⊢
    rw [List.foldl_cons]
    exact ih _ (foldA_WF o v.1 notifs st h)

/-- Every attempt added by the all-users loop pairs a listed user with a
listed notification. -/
theorem runUsers_attempts_cases (o : Int → String → Bool) (notifs : List NotificationUnit) :
    ∀ (users : List UserRec) (st : NotifyState) (p : Int × NotificationUnit),
      p ∈ (runUsers o users notifs st).attempts →
      p ∈ st.attempts ∨ (p.1 ∈ users.map Prod.fst ∧ p.2 ∈ notifs) := by
  intro users
  induction users with
  | nil => intro st p hp; exact Or.inl (by simpa [runUsers] using hp)
  | cons v vs ih =>
    intro st p hp
    unfold runUsers at ih hp
    rw [List.foldl_cons] at hp
    rcases ih _ p hp with h1 | ⟨h1, h2⟩
    · rcases foldA_attempts_cases o v.1 notifs st p h1 with h2 | ⟨h2, h3⟩
      · exact Or.inl h2
      · exact Or.inr ⟨by simp [h2], h3⟩
    · exact Or.inr ⟨by simp [h1], h2⟩

/-- A pair recorded after the all-users loop was recorded before, or some
successful attempt with that fingerprint appears in the log. -/
theorem runUsers_sent_cases (o : Int → String → Bool) (notifs : List NotificationUnit) :
    ∀ (users : List UserRec) (st : NotifyState) (u : Int) (d : NotificationData),
      isNotificationSent (runUsers o users notifs st).store u d = true →
      isNotificationSent st.store u d = true ∨
        ∃ m, m.data = d ∧ (u, m) ∈ (runUsers o users notifs st).attempts ∧
          o u m.text = true := by
  intro users
  induction users with
  | nil => intro st u d h; exact Or.inl (by simpa [runUsers] using h)
  | cons v vs ih =>
    intro st u d h
    unfold runUsers at ih h ⊢
    rw [List.foldl_cons] at h ⊢
    rcases ih _ u d h with h1 | ⟨m, hm, hat, ho⟩
    · rcases foldA_sent_cases o v.1 notifs st u d h1 with h2 | ⟨m, hm, hat, ho⟩
      · exact Or.inl h2
      · right
        refine ⟨m, hm, ?_, ho⟩
        have : (runUsers o vs notifs (runUser o notifs st v)).attempts
            = (vs.foldl (runUser o notifs) (runUser o notifs st v)).attempts := rfl
        exact runUsers_attempts_mono o notifs vs _ _ hat
    · exact Or.inr ⟨m, hm, hat, ho⟩

/-- If a fingerprint is recorded before the all-users loop, no delivery is
attempted for it. -/
theorem runUsers_no_attempt_when_sent (o : Int → String → Bool) (notifs : List NotificationUnit) :
    ∀ (users : List UserRec) (st : NotifyState) (u : Int) (d : NotificationData),
      isNotificationSent st.store u d = true →
      ∀ m : NotificationUnit, m.data = d →
        (u, m) ∈ (runUsers o users notifs st).attempts → (u, m) ∈ st.attempts := by
  intro users
  induction users with
  | nil => intro st u d _ m _ hmem; simpa [runUsers] using hmem
  | cons v vs ih =>
    intro st u d hsent m hmd hmem
    unfold runUsers at ih hmem
    rw [List.foldl_cons] at hmem
    have h1 := ih _ u d (foldA_store_mono o v.1 notifs st u d hsent) m hmd hmem
    exact foldA_no_attempt_when_sent o v.1 notifs st u d hsent m hmd h1

/-- The all-users loop reaches every pair of a listed user and a listed
notification. -/
theorem runUsers_reaches (o : Int → String → Bool) (notifs : List NotificationUnit) :
    ∀ (users : List UserRec) (st : NotifyState) (uid : Int) (n : NotificationUnit),
      NotifyWF o st → uid ∈ users.map Prod.fst → n ∈ notifs →
      isNotificationSent st.store uid n.data = true ∨
        ∃ m, m.data = n.data ∧ (uid, m) ∈ (runUsers o users notifs st).attempts := by
  intro users
  induction users with
  | nil => intro st uid n _ hu _; simp at hu
  | cons v vs ih =>
    intro st uid n hWF hu hn
    unfold runUsers at ih ⊢
    rw [List.foldl_cons]
    by_cases he : uid = v.1
    · rw [he]
      rcases foldA_reaches o v.1 notifs st n hn with hs | ⟨m, hm, hat⟩
      · exact Or.inl hs
      · right
        exact ⟨m, hm, runUsers_attempts_mono o notifs vs _ _ hat⟩
    · have hu2 : uid ∈ vs.map Prod.fst := by
        rcases (by simpa using hu : uid = v.1 ∨ ∃ b, (uid, b) ∈ vs) with h | h
        · exact absurd h he
        · simpa using h
      by_cases hs : isNotificationSent st.store uid n.data = true
      · exact Or.inl hs
      · have hsf : isNotificationSent st.store uid n.data = false := by simpa using hs
        have hs2 : isNotificationSent (runUser o notifs st v).store uid n.data = false := by
          by_contra hx
          have hx2 : isNotificationSent (runUser o notifs st v).store uid n.data = true := by
            simpa using hx
          rcases foldA_sent_cases o v.1 notifs st uid n.data hx2 with h1 | ⟨m, hmd, hat, ho⟩
          · rw [h1] at hsf; exact absurd hsf (by simp)
          · rcases foldA_attempts_cases o v.1 notifs st _ hat with h2 | ⟨h3, _⟩
            · have := hWF uid m h2 ho
              rw [hmd] at this
              rw [this] at hsf
              exact absurd hsf (by simp)
            · exact he h3
        have hWF2 : NotifyWF o (runUser o notifs st v) := foldA_WF o v.1 notifs st hWF
        rcases ih (runUser o notifs st v) uid n hWF2 hu2 hn with h | h
        · rw [h] at hs2; exact absurd hs2 (by simp)
        · exact Or.inr h

/-! ## Key-distinctness of the built notifications -/

/-- The representative found for a key has that key. -/
theorem key_of_firstWithKey {es : List Event} {k : String} {e : Event}
    (h : firstWithKey es k = some e) : createEventKey e = k := by
  have := List.find?_some h
  simpa using this

/-- Mapping `g` over a `filterMap` whose results project back to the source
element under `gP` yields a sublist of the `gP`-image. -/
theorem map_filterMap_sublist {α β γ : Type} (f : α → Option β) (g : β → γ) (gP : α → γ)
    (hfg : ∀ a b, f a = some b → g b = gP a) :
    ∀ l : List α, ((l.filterMap f).map g).Sublist (l.map gP) := by
  intro l
  induction l with
  | nil => simp
  | cons a t ih =>
    cases hfa : f a with
    | none =>
      simp only [List.filterMap_cons, hfa, List.map_cons]
      exact ih.cons _
    | some b =>
      simp only [List.filterMap_cons, hfa, List.map_cons, hfg a b hfa]
      exact ih.cons₂ _

/-- The keys of the `added` bucket are pairwise distinct. -/
theorem added_keys_nodup (old new : List Event) :
    ((compareSchedules old new).added.map createEventKey).Nodup := by
  have hred : (compareSchedules old new).added
      = ((keysOf new).filter (fun k => !((keysOf old).contains k))).filterMap
          (firstWithKey new) := rfl
  rw [hred]
  have h := map_filterMap_sublist (firstWithKey new) createEventKey (fun k => k)
    (fun a b hab => key_of_firstWithKey hab)
    ((keysOf new).filter (fun k => !((keysOf old).contains k)))
  rw [List.map_id'] at h
  exact h.nodup ((List.nodup_dedup _).filter _)

/-- The keys of the `removed` bucket are pairwise distinct. -/
theorem removed_keys_nodup (old new : List Event) :
    ((compareSchedules old new).removed.map createEventKey).Nodup := by
  have hred : (compareSchedules old new).removed
      = ((keysOf old).filter (fun k => !((keysOf new).contains k))).filterMap
          (firstWithKey old) := rfl
  rw [hred]
  have h := map_filterMap_sublist (firstWithKey old) createEventKey (fun k => k)
    (fun a b hab => key_of_firstWithKey hab)
    ((keysOf old).filter (fun k => !((keysOf new).contains k)))
  rw [List.map_id'] at h
  exact h.nodup ((List.nodup_dedup _).filter _)

/-- A successful dict lookup guarantees a representative with that key. -/
theorem firstWithKey_of_dictLookup {es : List Event} {k : String} {nd : NormalizedEvent}
    (h : dictLookup (normMap es) k = some nd) :
    ∃ e, firstWithKey es k = some e ∧ createEventKey e = k := by
  rw [dictLookup_normMap] at h
  obtain ⟨x, hx, -⟩ := Option.map_eq_some'.mp h
  cases hl : (es.filter (fun e => createEventKey e == k)).head? with
  | none =>
    rw [List.head?_eq_none_iff] at hl
    rw [hl] at hx
    simp at hx
  | some e =>
    refine ⟨e, ?_, ?_⟩
    · rw [firstWithKey_eq_head_filter, hl]
    · have hmem : e ∈ es.filter (fun x => createEventKey x == k) :=
        List.mem_of_mem_head? (by rw [hl]; rfl)
      have := List.of_mem_filter hmem
      simpa using this

/-- A changed entry produced for key `k` carries a new event whose key is `k`. -/
theorem changed_f_key (old new : List Event) (k : String) (ch : ChangedEntry)
    (h : changedEntryFor old new k = some ch) :
    (ch.new.map createEventKey).getD "" = k := by
  unfold changedEntryFor at h
  cases hol : dictLookup (normMap old) k with
  | none => rw [hol] at h; simp at h
  | some od =>
    cases hnl : dictLookup (normMap new) k with
    | none => rw [hol, hnl] at h; simp at h
    | some nd =>
      rw [hol, hnl] at h
      simp only [] at h
      by_cases hemp : (computeChanges od nd).isEmpty = true
      · rw [if_pos hemp] at h
        exact absurd h (by simp)
      · rw [if_neg hemp] at h
        obtain ⟨e, he, hke⟩ := firstWithKey_of_dictLookup hnl
        have := Option.some_inj.mp h
        rw [← this]
        simp [he, hke]

/-- The new-event keys of the `changed` bucket are pairwise distinct. -/
theorem changed_newkeys_nodup (old new : List Event) :
    ((compareSchedules old new).changed.map
      (fun ch => (ch.new.map createEventKey).getD "")).Nodup := by
  have hred : (compareSchedules old new).changed
      = ((keysOf old).filter (fun k => (keysOf new).contains k)).filterMap
          (changedEntryFor old new) := rfl
  rw [hred]
  have h := map_filterMap_sublist (changedEntryFor old new)
    (fun ch => (ch.new.map createEventKey).getD "") (fun k => k)
    (fun a b hab => changed_f_key old new a b hab)
    ((keysOf old).filter (fun k => (keysOf new).contains k))
  rw [List.map_id'] at h
  exact h.nodup ((List.nodup_dedup _).filter _)

/-- A `filterMap` that skips on a predicate is a `filter` followed by `map`. -/
theorem filterMap_if_eq {α β : Type} (p : α → Bool) (u : α → β) (l : List α) :
    l.filterMap (fun e => if p e then none else some (u e)) = (l.filter (fun e => !p e)).map u := by
  induction l with
  | nil => rfl
  | cons a t ih =>
    by_cases h : p a = true
    · simp [List.filterMap_cons, List.filter_cons, h, ih]
    · have hf : p a = false := by simpa using h
      simp [List.filterMap_cons, List.filter_cons, hf, ih]

/-- A notification segment whose payloads carry pairwise distinct keys has
pairwise distinct payloads. -/
theorem seg_nodup_of_key {α : Type} (l : List α) (f : α → Option NotificationUnit)
    (keyP : α → String)
    (hkey : ∀ a u, f a = some u → u.data.event_key = keyP a)
    (hnod : (l.map keyP).Nodup) :
    ((l.filterMap f).map NotificationUnit.data).Nodup := by
  apply List.Nodup.of_map NotificationData.event_key
  rw [List.map_map]
  have h := map_filterMap_sublist f (fun u => u.data.event_key) keyP hkey l
  exact h.nodup hnod

/-- All payloads of one build segment share its `type` tag. -/
theorem seg_type {α : Type} (l : List α) (f : α → Option NotificationUnit) (ty : String)
    (hty : ∀ a u, f a = some u → u.data.type = ty) :
    ∀ d ∈ (l.filterMap f).map NotificationUnit.data, d.type = ty := by
  intro d hd
  obtain ⟨u, hu, hud⟩ := List.mem_map.mp hd
  obtain ⟨a, ha, hfa⟩ := List.mem_filterMap.mp hu
  rw [← hud]
  exact hty a u hfa

/-- The notification payloads built from one diff are pairwise distinct:
within a bucket the event keys differ, across buckets the `type` tags differ. -/
theorem buildNotifications_data_nodup (gname : String) (old new : List Event) :
    ((buildNotifications gname (compareSchedules old new)).map NotificationUnit.data).Nodup := by
  unfold buildNotifications
  rw [List.map_append, List.map_append]
  have hkeyA : ∀ (a : Event) (u : NotificationUnit),
      (if isSessionEvent a then none else
        some { text := formatChangeNotification "added" a none gname
               data := { type := "added", event_key := createEventKey a }
               srcEvent := a }) = some u → u.data.event_key = createEventKey a := by
    intro a u hu
    by_cases hs : isSessionEvent a = true
    · rw [if_pos hs] at hu
      exact absurd hu (by simp)
    · rw [if_neg hs] at hu
      rw [← Option.some_inj.mp hu]
  have htyA : ∀ (a : Event) (u : NotificationUnit),
      (if isSessionEvent a then none else
        some { text := formatChangeNotification "added" a none gname
               data := { type := "added", event_key := createEventKey a }
               srcEvent := a }) = some u → u.data.type = "added" := by
    intro a u hu
    by_cases hs : isSessionEvent a = true
    · rw [if_pos hs] at hu
      exact absurd hu (by simp)
    · rw [if_neg hs] at hu
      rw [← Option.some_inj.mp hu]
  have hkeyB : ∀ (a : Event) (u : NotificationUnit),
      (if isSessionEvent a then none else
        some { text := formatChangeNotification "removed" a none gname
               data := { type := "removed", event_key := createEventKey a }
               srcEvent := a }) = some u → u.data.event_key = createEventKey a := by
    intro a u hu
    by_cases hs : isSessionEvent a = true
    · rw [if_pos hs] at hu
      exact absurd hu (by simp)
    · rw [if_neg hs] at hu
      rw [← Option.some_inj.mp hu]
  have htyB : ∀ (a : Event) (u : NotificationUnit),
      (if isSessionEvent a then none else
        some { text := formatChangeNotification "removed" a none gname
               data := { type := "removed", event_key := createEventKey a }
               srcEvent := a }) = some u → u.data.type = "removed" := by
    intro a u hu
    by_cases hs : isSessionEvent a = true
    · rw [if_pos hs] at hu
      exact absurd hu (by simp)
    · rw [if_neg hs] at hu
      rw [← Option.some_inj.mp hu]
  have hkeyC : ∀ (ch : ChangedEntry) (u : NotificationUnit),
      (match ch.new with
        | some e =>
            if isSessionEvent e then none
            else some { text := formatChangeNotification "changed" e (some ch.changes) gname
                        data := { type := "changed", event_key := createEventKey e,
                                  changes := some ch.changes }
                        srcEvent := e }
        | none => none) = some u →
      u.data.event_key = (ch.new.map createEventKey).getD "" := by
    intro ch u hu
    cases hn : ch.new with
    | none => rw [hn] at hu; simp at hu
    | some e =>
      rw [hn] at hu
      simp only [] at hu
      by_cases hs : isSessionEvent e = true
      · rw [if_pos hs] at hu
        exact absurd hu (by simp)
      · rw [if_neg hs] at hu
        rw [← Option.some_inj.mp hu]
        simp
  have htyC : ∀ (ch : ChangedEntry) (u : NotificationUnit),
      (match ch.new with
        | some e =>
            if isSessionEvent e then none
            else some { text := formatChangeNotification "changed" e (some ch.changes) gname
                        data := { type := "changed", event_key := createEventKey e,
                                  changes := some ch.changes }
                        srcEvent := e }
        | none => none) = some u → u.data.type = "changed" := by
    intro ch u hu
    cases hn : ch.new with
    | none => rw [hn] at hu; simp at hu
    | some e =>
      rw [hn] at hu
      simp only [] at hu
      by_cases hs : isSessionEvent e = true
      · rw [if_pos hs] at hu
        exact absurd hu (by simp)
      · rw [if_neg hs] at hu
        rw [← Option.some_inj.mp hu]
  have hA := seg_nodup_of_key (compareSchedules old new).added _ createEventKey hkeyA
    (added_keys_nodup old new)
  have hB := seg_nodup_of_key (compareSchedules old new).removed _ createEventKey hkeyB
    (removed_keys_nodup old new)
  have hC := seg_nodup_of_key (compareSchedules old new).changed _
    (fun ch => (ch.new.map createEventKey).getD "") hkeyC (changed_newkeys_nodup old new)
  have htA := seg_type (compareSchedules old new).added _ "added" htyA
  have htB := seg_type (compareSchedules old new).removed _ "removed" htyB
  have htC := seg_type (compareSchedules old new).changed _ "changed" htyC
  rw [List.nodup_append, List.nodup_append]
  refine ⟨⟨hA, hB, ?_⟩, hC, ?_⟩
  · intro d hdA hdB
    have h1 := htA d hdA
    have h2 := htB d hdB
    rw [h1] at h2
    exact absurd h2 (by decide)
  · intro d hdAB hdC
    have h2 := htC d hdC
    rcases List.mem_append.mp hdAB with hd | hd
    · have h1 := htA d hd
      rw [h1] at h2
      exact absurd h2 (by decide)
    · have h1 := htB d hd
      rw [h1] at h2
      exact absurd h2 (by decide)

/-- No built notification stems from a session event: the added/removed
branches test the event itself, the changed branch tests the new event. -/
theorem buildNotifications_session_free (gname : String) (diff : DiffResult)
    (u : NotificationUnit) (hu : u ∈ buildNotifications gname diff) :
    isSessionEvent u.srcEvent = false := by
  unfold buildNotifications at hu
  rcases List.mem_append.mp hu with hu2 | hu2
  · rcases List.mem_append.mp hu2 with hu3 | hu3
    · obtain ⟨e, he, hfe⟩ := List.mem_filterMap.mp hu3
      by_cases hs : isSessionEvent e = true
      · rw [if_pos hs] at hfe
        exact absurd hfe (by simp)
      · rw [if_neg hs] at hfe
        rw [← Option.some_inj.mp hfe]
        simpa using hs
    · obtain ⟨e, he, hfe⟩ := List.mem_filterMap.mp hu3
      by_cases hs : isSessionEvent e = true
      · rw [if_pos hs] at hfe
        exact absurd hfe (by simp)
      · rw [if_neg hs] at hfe
        rw [← Option.some_inj.mp hfe]
        simpa using hs
  · obtain ⟨ch, hch, hfe⟩ := List.mem_filterMap.mp hu2
    cases hn : ch.new with
    | none => rw [hn] at hfe; simp at hfe
    | some e =>
      rw [hn] at hfe
      simp only [] at hfe
      by_cases hs : isSessionEvent e = true
      · rw [if_pos hs] at hfe
        exact absurd hfe (by simp)
      · rw [if_neg hs] at hfe
        rw [← Option.some_inj.mp hfe]
        simpa using hs

/-- With a non-empty notification list and a non-empty user list, the notifier
is exactly the delivery loop started on an empty attempt log. -/
theorem notifyScheduleChanges_eq_run (deliver : Int → String → Bool) (users : List UserRec)
    (store : SentStore) (old new : List Event)
    (hne : buildNotifications (groupNameOf users) (compareSchedules old new) ≠ [])
    (hus : users ≠ []) :
    notifyScheduleChanges deliver users store old new =
      runUsers deliver users (buildNotifications (groupNameOf users) (compareSchedules old new))
        { store := store, sentCount := 0, attempts := [] } := by
  unfold notifyScheduleChanges
  have hc1 : ¬((compareSchedules old new).added.isEmpty
      && (compareSchedules old new).removed.isEmpty
      && (compareSchedules old new).changed.isEmpty) = true := by
    intro hc
    apply hne
    simp only [Bool.and_eq_true, List.isEmpty_iff] at hc
    obtain ⟨⟨h1, h2⟩, h3⟩ := hc
    simp [buildNotifications, h1, h2, h3]
  have hc2 : ¬users.isEmpty = true := by
    simpa [List.isEmpty_iff] using hus
  rw [if_neg hc1, if_neg hc2]

/-- Every delivery attempt of the notifier delivers one of the built
notifications. -/
theorem notify_attempt_src (deliver : Int → String → Bool) (users : List UserRec)
    (store : SentStore) (old new : List Event) (p : Int × NotificationUnit)
    (hp : p ∈ (notifyScheduleChanges deliver users store old new).attempts) :
    p.2 ∈ buildNotifications (groupNameOf users) (compareSchedules old new) := by
  unfold notifyScheduleChanges at hp
  by_cases hc1 : ((compareSchedules old new).added.isEmpty
      && (compareSchedules old new).removed.isEmpty
      && (compareSchedules old new).changed.isEmpty) = true
  · rw [if_pos hc1] at hp
    simp at hp
  · rw [if_neg hc1] at hp
    by_cases hc2 : users.isEmpty = true
    · rw [if_pos hc2] at hp
      simp at hp
    · rw [if_neg hc2] at hp
      rcases runUsers_attempts_cases deliver _ users _ p hp with h | ⟨_, h⟩
      · simp at h
      · exact h

/-- If a fingerprint is already recorded for a user, the notifier attempts no
delivery for it, whatever the diff. -/
theorem notify_no_attempt_when_sent (deliver : Int → String → Bool) (users : List UserRec)
    (store : SentStore) (old new : List Event) (uid : Int) (d : NotificationData)
    (h : isNotificationSent store uid d = true) :
    ∀ m : NotificationUnit, m.data = d →
      (uid, m) ∉ (notifyScheduleChanges deliver users store old new).attempts := by
  intro m hm hmem
  unfold notifyScheduleChanges at hmem
  by_cases hc1 : ((compareSchedules old new).added.isEmpty
      && (compareSchedules old new).removed.isEmpty
      && (compareSchedules old new).changed.isEmpty) = true
  · rw [if_pos hc1] at hmem
    simp at hmem
  · rw [if_neg hc1] at hmem
    by_cases hc2 : users.isEmpty = true
    · rw [if_pos hc2] at hmem
      simp at hmem
    · rw [if_neg hc2] at hmem
      have := runUsers_no_attempt_when_sent deliver _ users
        { store := store, sentCount := 0, attempts := [] } uid d h m hm hmem
      simp at this

/-! ## C3 -/

/-- C3: for every diff result, an event with `is_session_event = true` never
has a notification built or delivered for it: the added/removed branches skip
the event itself and the changed branch skips on the new event, so every built
notification unit and every delivery attempt carries a non-session source
event. -/
theorem session_events_generate_no_notifications :
    (∀ (groupName : String) (old new : List Event) (u : NotificationUnit),
      u ∈ buildNotifications groupName (compareSchedules old new) →
      isSessionEvent u.srcEvent = false) ∧
    (∀ (deliver : Int → String → Bool) (users : List UserRec) (store : SentStore)
        (old new : List Event) (p : Int × NotificationUnit),
      p ∈ (notifyScheduleChanges deliver users store old new).attempts →
      isSessionEvent p.2.srcEvent = false) := by
  constructor
  · intro gname old new u hu
    exact buildNotifications_session_free gname _ u hu
  · intro deliver users store old new p hp
    exact buildNotifications_session_free _ _ _
      (notify_attempt_src deliver users store old new p hp)

/-! ## C2 -/

/-- C2: in `notify_schedule_changes`, for every (user, notification unit) pair
of the run: (1) if the deduplicator already records the fingerprint of the
pair, no delivery is attempted for it; (2) otherwise delivery is attempted and
the fingerprint ends up recorded exactly when the sink reports success — a
failed delivery is never recorded; (3) once the fingerprint is recorded, a
later cycle observing the identical change never re-delivers it. -/
theorem notify_dedup_delivery_semantics
    (deliver : Int → String → Bool) (users : List UserRec) (store : SentStore)
    (old new : List Event) (uid : Int) (n : NotificationUnit)
    (hu : uid ∈ users.map Prod.fst)
    (hn : n ∈ buildNotifications (groupNameOf users) (compareSchedules old new)) :
    (isNotificationSent store uid n.data = true →
      ∀ m : NotificationUnit, m.data = n.data →
        (uid, m) ∉ (notifyScheduleChanges deliver users store old new).attempts) ∧
    (isNotificationSent store uid n.data = false →
      (∃ m, m.data = n.data ∧
        (uid, m) ∈ (notifyScheduleChanges deliver users store old new).attempts) ∧
      isNotificationSent (notifyScheduleChanges deliver users store old new).store uid n.data
        = deliver uid n.text) ∧
    (isNotificationSent (notifyScheduleChanges deliver users store old new).store uid n.data
        = true →
      ∀ (deliver2 : Int → String → Bool) (users2 : List UserRec) (old2 new2 : List Event)
        (m : NotificationUnit), m.data = n.data →
        (uid, m) ∉ (notifyScheduleChanges deliver2 users2
            (notifyScheduleChanges deliver users store old new).store old2 new2).attempts) := by
  have hne : buildNotifications (groupNameOf users) (compareSchedules old new) ≠ [] := by
    intro hc
    rw [hc] at hn
    exact absurd hn (List.not_mem_nil n)
  have hus : users ≠ [] := by
    intro hc
    rw [hc] at hu
    simp at hu
  have hrun := notifyScheduleChanges_eq_run deliver users store old new hne hus
  have hWF0 : NotifyWF deliver { store := store, sentCount := 0, attempts := [] } := by
    intro u m hm _
    simp at hm
  refine ⟨?_, ?_, ?_⟩
  · intro hsent m hm
    exact notify_no_attempt_when_sent deliver users store old new uid n.data hsent m hm
  · intro hfalse
    have hreach := runUsers_reaches deliver _ users
      { store := store, sentCount := 0, attempts := [] } uid n hWF0 hu hn
    rcases hreach with hs | ⟨m, hmd, hat⟩
    · have hs2 : isNotificationSent store uid n.data = true := hs
      rw [hfalse] at hs2
      exact absurd hs2 (by simp)
    · have hinj := List.inj_on_of_nodup_map
        (buildNotifications_data_nodup (groupNameOf users) old new)
      have hmemnot : (uid, m) ∈ (notifyScheduleChanges deliver users store old new).attempts := by
        rw [hrun]
        exact hat
      have hmem : m ∈ buildNotifications (groupNameOf users) (compareSchedules old new) :=
        notify_attempt_src deliver users store old new (uid, m) hmemnot
      have hmn : m = n := hinj hmem hn hmd
      constructor
      · exact ⟨m, hmd, hmemnot⟩
      · cases hdel : deliver uid n.text with
        | true =>
          have hWFf : NotifyWF deliver (runUsers deliver users
              (buildNotifications (groupNameOf users) (compareSchedules old new))
              { store := store, sentCount := 0, attempts := [] }) :=
            runUsers_WF deliver _ users _ hWF0
          rw [hmn] at hat
          have := hWFf uid n hat hdel
          rw [hrun]
          exact this
        | false =>
          rw [hrun]
          cases hfin : isNotificationSent (runUsers deliver users
              (buildNotifications (groupNameOf users) (compareSchedules old new))
              { store := store, sentCount := 0, attempts := [] }).store uid n.data with
          | false => rfl
          | true =>
            rcases runUsers_sent_cases deliver _ users _ uid n.data hfin with
              h1 | ⟨m2, hmd2, hat2, ho2⟩
            · have h1b : isNotificationSent store uid n.data = true := h1
              rw [hfalse] at h1b
              exact absurd h1b (by simp)
            · have hmemnot2 : (uid, m2)
                  ∈ (notifyScheduleChanges deliver users store old new).attempts := by
                rw [hrun]
                exact hat2
              have hmem2 : m2 ∈ buildNotifications (groupNameOf users)
                  (compareSchedules old new) :=
                notify_attempt_src deliver users store old new (uid, m2) hmemnot2
              have hmn2 : m2 = n := hinj hmem2 hn hmd2
              rw [hmn2] at ho2
              rw [hdel] at ho2
              exact absurd ho2 (by simp)
  · intro hsentfinal deliver2 users2 old2 new2 m hm
    exact notify_no_attempt_when_sent deliver2 users2 _ old2 new2 uid n.data hsentfinal m hm

set_option maxRecDepth 65536 in
/-- Witness for C3: the added lecture `evB` yields a notification while the
exam event in the same fetch yields none. -/
theorem session_events_generate_no_notifications_witness :
    unitAddedB ∈ buildNotifications "" (compareSchedules [] [evB, evExam]) ∧
    isSessionEvent unitAddedB.srcEvent = false :=
  ⟨by decide, (session_events_generate_no_notifications).1 "" [] [evB, evExam] unitAddedB
    (by decide)⟩

set_option maxRecDepth 65536 in
/-- Witness for C2: user 7, the `evA` to `evB` time-change notification, an
empty dedup store and an always-successful sink. -/
theorem notify_dedup_delivery_semantics_witness :
    (7 ∈ ([((7 : Int), "ГР")]).map Prod.fst) ∧
    unitChangedB ∈ buildNotifications (groupNameOf [((7 : Int), "ГР")])
      (compareSchedules [evA] [evB]) ∧
    ((isNotificationSent [] 7 unitChangedB.data = true →
      ∀ m : NotificationUnit, m.data = unitChangedB.data →
        (7, m) ∉ (notifyScheduleChanges (fun _ _ => true) [((7 : Int), "ГР")] [] [evA]
            [evB]).attempts) ∧
     (isNotificationSent [] 7 unitChangedB.data = false →
      (∃ m, m.data = unitChangedB.data ∧
        (7, m) ∈ (notifyScheduleChanges (fun _ _ => true) [((7 : Int), "ГР")] [] [evA]
            [evB]).attempts) ∧
      isNotificationSent (notifyScheduleChanges (fun _ _ => true) [((7 : Int), "ГР")] [] [evA]
          [evB]).store 7 unitChangedB.data = (fun _ _ => true) 7 unitChangedB.text) ∧
     (isNotificationSent (notifyScheduleChanges (fun _ _ => true) [((7 : Int), "ГР")] [] [evA]
          [evB]).store 7 unitChangedB.data = true →
      ∀ (deliver2 : Int → String → Bool) (users2 : List UserRec) (old2 new2 : List Event)
        (m : NotificationUnit), m.data = unitChangedB.data →
        (7, m) ∉ (notifyScheduleChanges deliver2 users2
            (notifyScheduleChanges (fun _ _ => true) [((7 : Int), "ГР")] [] [evA] [evB]).store
            old2 new2).attempts)) :=
  ⟨by decide, by decide,
    notify_dedup_delivery_semantics (fun _ _ => true) [((7 : Int), "ГР")] [] [evA] [evB] 7
      unitChangedB (by decide) (by decide)⟩
